import Mathlib

/-!
Shallow embedding of the carpooling/ride-sharing matching, sequencing and
dispatch engine (Django/Celery source: matching/services.py, matching/tasks.py,
routing/services.py, drivers/services.py, rides/views.py, rides/models.py).

Coordinates are modelled over the reals; timestamps over the integers, in
minutes (both the matcher and the expiry sweep use a 10-minute wait window).
Fields of the Django models that no verified property touches (addresses,
fares, ratings, joined_at timestamps) are omitted from the records.
-/

namespace Carpool

/-! ### Geometry (the haversine helpers duplicated across
matching/services.py, routing/services.py, drivers/services.py and
rides/models.py are all the same formula) -/

/-- Python's math.atan2, written out by quadrant. In the haversine formula
both arguments are square roots, hence nonnegative, so only the x > 0 and
x = 0 branches are ever taken. -/
noncomputable def atan2 (y x : ℝ) : ℝ :=
  if 0 < x then Real.arctan (y / x)
  else if x < 0 then
    (if 0 ≤ y then Real.arctan (y / x) + Real.pi else Real.arctan (y / x) - Real.pi)
  else if 0 < y then Real.pi / 2
  else if y < 0 then -(Real.pi / 2)
  else 0

/-- math.radians: degrees to radians. -/
noncomputable def radians (deg : ℝ) : ℝ := deg * Real.pi / 180

/-- Embeds _haversine_distance(lat1, lon1, lat2, lon2) from matching/services.py:
great-circle distance in meters, R = 6371000. -/
noncomputable def haversine_distance (lat1 lon1 lat2 lon2 : ℝ) : ℝ :=
  let l1 := radians lat1
  let m1 := radians lon1
  let l2 := radians lat2
  let m2 := radians lon2
  let dlat := l2 - l1
  let dlon := m2 - m1
  let a := Real.sin (dlat / 2) ^ 2 +
    Real.cos l1 * Real.cos l2 * Real.sin (dlon / 2) ^ 2
  let c := 2 * atan2 (Real.sqrt a) (Real.sqrt (1 - a))
  6371000 * c

/-- PoolMatchingService._calculate_centroid: arithmetic mean of the points;
on the empty list the source returns the pair (0, 0). -/
noncomputable def calculate_centroid (points : List (ℝ × ℝ)) : ℝ × ℝ :=
  if points = [] then (0, 0)
  else ((points.map Prod.fst).sum / points.length,
        (points.map Prod.snd).sum / points.length)

/-! ### Data model (rides/models.py) -/

/-- RideRequest. Status is the literal Django choice string
(pending / matched / driver_assigned / picked_up / completed / cancelled). -/
structure RideRequest where
  id : Nat
  pickup_latitude : ℝ
  pickup_longitude : ℝ
  destination_latitude : ℝ
  destination_longitude : ℝ
  status : String

/-- Pool. Status is the literal Django choice string; created_at is a
timestamp in minutes. max_riders defaults to 4, max_wait_time to 10. -/
structure Pool where
  id : Nat
  status : String
  max_riders : Nat
  max_wait_time : Int
  created_at : Int
  closed_at : Option Int

/-- PoolMembership, with the referenced RideRequest row inlined (the ORM
always accesses it through the membership join). -/
structure PoolMembership where
  pool_id : Nat
  ride_request : RideRequest
  pickup_order : Nat
  dropoff_order : Nat

/-- Driver (location fields kept; dispatch distance search is not needed by
the verified properties, driver acceptance is). -/
structure Driver where
  id : Nat
  max_capacity : Nat
  is_available : Bool
  current_latitude : Option ℝ
  current_longitude : Option ℝ

/-- Trip: one per pool, created when a driver is confirmed. -/
structure Trip where
  id : Nat
  pool_id : Nat
  driver_id : Nat

/-- The persistent store: every table as a list of rows, in insertion order
(Django's default iteration order used by the engine's queries). -/
structure DB where
  requests : List RideRequest
  pools : List Pool
  memberships : List PoolMembership
  drivers : List Driver
  trips : List Trip

/-- pool.members.all(): the memberships of one pool. -/
def memberships_of (ms : List PoolMembership) (pid : Nat) : List PoolMembership :=
  ms.filter (fun m => m.pool_id == pid)

/-- pool.members.count(). -/
def member_count (s : DB) (pid : Nat) : Nat :=
  (memberships_of s.memberships pid).length

/-- The ride requests of a pool's members, in membership order. -/
def member_requests (s : DB) (pid : Nat) : List RideRequest :=
  (memberships_of s.memberships pid).map (fun m => m.ride_request)

/-! ### PoolMatchingService (matching/services.py) -/

/-- max_pickup_distance = max_destination_distance = 3000 m. -/
def max_pickup_distance : ℝ := 3000

def max_destination_distance : ℝ := 3000

/-- max_detour_percentage = 0.15. -/
def max_detour_percentage : ℝ := 0.15

/-- max_wait_time = timedelta(minutes=10), as integer minutes. -/
def max_wait_time : Int := 10

/-- Embeds _all_requests_identical: every request matches the first one's pickup and
destination, each coordinate within a strict 1e-4 tolerance. Lists of length
at most one are identical by definition. -/
def all_requests_identical (rs : List RideRequest) : Prop :=
  match rs with
  | [] => True
  | first :: rest =>
    ∀ rr ∈ rest,
      |first.pickup_latitude - rr.pickup_latitude| < 0.0001 ∧
      |first.pickup_longitude - rr.pickup_longitude| < 0.0001 ∧
      |first.destination_latitude - rr.destination_latitude| < 0.0001 ∧
      |first.destination_longitude - rr.destination_longitude| < 0.0001

noncomputable instance (rs : List RideRequest) :
    Decidable (all_requests_identical rs) := Classical.dec _

/-- The accumulation loop of _estimate_pool_route_distance for non-identical
requests: starting from position cur, for each request add the leg from cur
to its pickup (skipped when cur already equals the pickup exactly), then its
pickup-to-destination leg, and move cur to its destination. The source's
extra i > 0 guard is redundant because the loop is entered with cur equal to
the first request's pickup. -/
noncomputable def route_legs (cur : ℝ × ℝ) : List RideRequest → ℝ
  | [] => 0
  | rr :: rest =>
    let pk : ℝ × ℝ := (rr.pickup_latitude, rr.pickup_longitude)
    let to_pickup : ℝ :=
      if cur ≠ pk then haversine_distance cur.1 cur.2 pk.1 pk.2 else 0
    let leg := haversine_distance rr.pickup_latitude rr.pickup_longitude
      rr.destination_latitude rr.destination_longitude
    to_pickup + leg + route_legs (rr.destination_latitude, rr.destination_longitude) rest

/-- Embeds _estimate_pool_route_distance: 0 on the empty list; the single
pickup-to-destination leg of the first request when all requests are
identical; otherwise the walk pickup -> destination -> next pickup -> ... -/
noncomputable def estimate_pool_route_distance (rs : List RideRequest) : ℝ :=
  match rs with
  | [] => 0
  | first :: _ =>
    if all_requests_identical rs then
      haversine_distance first.pickup_latitude first.pickup_longitude
        first.destination_latitude first.destination_longitude
    else
      route_legs (first.pickup_latitude, first.pickup_longitude) rs

/-- Embeds _is_route_compatible over the pool's member requests. -/
noncomputable def is_route_compatible (rr : RideRequest) (members : List RideRequest) : Prop :=
  let current_route_distance := estimate_pool_route_distance members
  let new_route_distance := estimate_pool_route_distance (members ++ [rr])
  if 0 < current_route_distance then
    (new_route_distance - current_route_distance) / current_route_distance ≤
      max_detour_percentage
  else
    True

/-- Embeds _is_pickup_near_pool: False on a memberless pool, else the haversine
distance from the request's pickup to the centroid of member pickups is at
most 3000 m. -/
noncomputable def is_pickup_near_pool (rr : RideRequest) (members : List RideRequest) : Prop :=
  members ≠ [] ∧
    (let c := calculate_centroid
      (members.map (fun m => (m.pickup_latitude, m.pickup_longitude)))
     haversine_distance rr.pickup_latitude rr.pickup_longitude c.1 c.2 ≤
       max_pickup_distance)

/-- Embeds _is_destination_near_pool. -/
noncomputable def is_destination_near_pool (rr : RideRequest) (members : List RideRequest) : Prop :=
  members ≠ [] ∧
    (let c := calculate_centroid
      (members.map (fun m => (m.destination_latitude, m.destination_longitude)))
     haversine_distance rr.destination_latitude rr.destination_longitude c.1 c.2 ≤
       max_destination_distance)

/-- Embeds _is_within_time_window: now - created_at ≤ max_wait_time. -/
def is_within_time_window (now : Int) (p : Pool) : Prop :=
  now - p.created_at ≤ max_wait_time

/-- Embeds _is_valid_match: nonzero member count, pickup and destination proximity,
route compatibility, time window. -/
noncomputable def is_valid_match (now : Int) (rr : RideRequest) (s : DB) (p : Pool) : Prop :=
  ¬ member_count s p.id = 0 ∧
  is_pickup_near_pool rr (member_requests s p.id) ∧
  is_destination_near_pool rr (member_requests s p.id) ∧
  is_route_compatible rr (member_requests s p.id) ∧
  is_within_time_window now p

noncomputable instance (now : Int) (rr : RideRequest) (s : DB) (p : Pool) :
    Decidable (is_valid_match now rr s p) := Classical.dec _

/-- find_matching_pools: query pools with status open and
created_at ≥ now - max_wait_time, keep those passing _is_valid_match,
preserving the store's order. -/
noncomputable def find_matching_pools (now : Int) (rr : RideRequest) (s : DB) : List Pool :=
  let open_pools := s.pools.filter
    (fun p => p.status == "open" && decide (now - max_wait_time ≤ p.created_at))
  open_pools.filter (fun p => decide (is_valid_match now rr s p))

/-! ### RouteOptimizer (routing/services.py) -/

/-- Python dict assignment d[k] = v: overwrite in place if the key exists,
otherwise append (insertion order preserved). -/
def dict_set (d : List (Nat × Nat)) (k v : Nat) : List (Nat × Nat) :=
  if d.any (fun e => e.1 == k) then
    d.map (fun e => if e.1 == k then (k, v) else e)
  else
    d ++ [(k, v)]

/-- dict.get(k, default). -/
def dict_get (d : List (Nat × Nat)) (k default_value : Nat) : Nat :=
  match d.find? (fun e => e.1 == k) with
  | some e => e.2
  | none => default_value

/-- dict[k] (KeyError modelled as 0; never hit on the keys the engine uses). -/
def dict_at (d : List (Nat × Nat)) (k : Nat) : Nat := dict_get d k 0

/-- The values of a dict, in key insertion order. -/
def dict_values (d : List (Nat × Nat)) : List Nat := d.map (fun e => e.2)

/-- The counter loop of _assign_orders: for each request of the input list,
in order, set orders[request.id] = counter and bump the counter. The source
runs the pickup and dropoff counters through one loop in lockstep; the two
resulting dicts are computed by the same fold. -/
def assign_orders_loop : List Nat → Nat → List (Nat × Nat) → List (Nat × Nat)
  | [], _, d => d
  | i :: rest, counter, d => assign_orders_loop rest (counter + 1) (dict_set d i counter)

/-- Embeds _generate_feasible_sequence: all pickups in input order, then all
dropoffs in input order. -/
def generate_feasible_sequence (rs : List RideRequest) : List (RideRequest × Bool) :=
  rs.map (fun rr => (rr, true)) ++ rs.map (fun rr => (rr, false))

/-- The result dict of optimize_route. -/
structure OptimizedRoute where
  sequence : List (RideRequest × Bool)
  pickup_orders : List (Nat × Nat)
  dropoff_orders : List (Nat × Nat)
  total_distance : ℝ

/-- Embeds _calculate_total_distance: the haversine leg of the first request
(documented simplification in the source), 0 on the empty list. -/
noncomputable def calculate_total_distance (rs : List RideRequest) : ℝ :=
  match rs with
  | [] => 0
  | rr :: _ =>
    haversine_distance rr.pickup_latitude rr.pickup_longitude
      rr.destination_latitude rr.destination_longitude

/-- Embeds _assign_orders. -/
noncomputable def assign_orders (sequence : List (RideRequest × Bool))
    (rs : List RideRequest) : OptimizedRoute :=
  { sequence := sequence
    pickup_orders := assign_orders_loop (rs.map (fun rr => rr.id)) 1 []
    dropoff_orders := assign_orders_loop (rs.map (fun rr => rr.id)) 1 []
    total_distance := calculate_total_distance rs }

/-- Embeds _calculate_single_distance. -/
noncomputable def calculate_single_distance (rr : RideRequest) : ℝ :=
  haversine_distance rr.pickup_latitude rr.pickup_longitude
    rr.destination_latitude rr.destination_longitude

/-- Embeds _simple_route: trivial pickup-then-dropoff sequence for one request. -/
noncomputable def simple_route (rr : RideRequest) : OptimizedRoute :=
  { sequence := [(rr, true), (rr, false)]
    pickup_orders := [(rr.id, 1)]
    dropoff_orders := [(rr.id, 1)]
    total_distance := calculate_single_distance rr }

/-- optimize_route: _simple_route for a singleton input, otherwise the
feasible sequence with counter-assigned orders. -/
noncomputable def optimize_route (rs : List RideRequest) : OptimizedRoute :=
  if h : rs.length = 1 then
    simple_route (rs.head (by intro hnil; rw [hnil] at h; simp at h))
  else
    assign_orders (generate_feasible_sequence rs) rs

/-! ### PoolManager (matching/services.py, the variant used by
rides/views.py; matching/pool_manager.py duplicates the same membership
arithmetic plus notifications) -/

/-- Fresh primary key for a new pool row. -/
def next_pool_id (s : DB) : Nat :=
  (s.pools.map (fun p => p.id)).foldr max 0 + 1

/-- Fresh primary key for a new trip row. -/
def next_trip_id (s : DB) : Nat :=
  (s.trips.map (fun t => t.id)).foldr max 0 + 1

/-- create_pool: a new open pool (defaults: max_riders 4, max_wait_time 10)
with a single membership ordered (1, 1). -/
def create_pool (now : Int) (rr : RideRequest) (s : DB) : DB × Nat :=
  let pid := next_pool_id s
  let pool : Pool :=
    { id := pid, status := "open", max_riders := 4, max_wait_time := 10,
      created_at := now, closed_at := none }
  let membership : PoolMembership :=
    { pool_id := pid, ride_request := rr, pickup_order := 1, dropoff_order := 1 }
  ({ s with pools := s.pools ++ [pool], memberships := s.memberships ++ [membership] },
   pid)

/-- The unique-requests extraction of _update_pool_members_order: first
occurrence per ride-request id, walking the optimized sequence. -/
def unique_by_id : List (RideRequest × Bool) → List Nat → List RideRequest
  | [], _ => []
  | (rr, _) :: rest, seen =>
    if rr.id ∈ seen then unique_by_id rest seen
    else rr :: unique_by_id rest (rr.id :: seen)

/-- Embeds _update_pool_members_order: delete the pool's memberships, extract the
unique requests from the optimized sequence (falling back to the new request
alone if the sequence yields none), and recreate one membership per unique
request with orders looked up in the order dicts (default 1). -/
def update_pool_members_order (s : DB) (pid : Nat) (route : OptimizedRoute)
    (new_rr : RideRequest) : DB :=
  let kept := s.memberships.filter (fun m => ! (m.pool_id == pid))
  let uniq := unique_by_id route.sequence []
  let uniq := if uniq.isEmpty then [new_rr] else uniq
  let created := uniq.map (fun rr =>
    ({ pool_id := pid, ride_request := rr,
       pickup_order := dict_get route.pickup_orders rr.id 1,
       dropoff_order := dict_get route.dropoff_orders rr.id 1 } : PoolMembership))
  { s with memberships := kept ++ created }

/-- add_to_pool: recompute the full membership set over the current member
requests plus the new one, replace the memberships, and if the member count
reached max_riders flip the pool to filled with closed_at = now (the driver
assignment it then schedules is a separate deferred task). -/
noncomputable def add_to_pool (now : Int) (rr : RideRequest) (pid : Nat) (s : DB) : DB :=
  let all_requests := member_requests s pid ++ [rr]
  let route := optimize_route all_requests
  let s1 := update_pool_members_order s pid route rr
  match s1.pools.find? (fun p => p.id == pid) with
  | none => s1
  | some pool =>
    if member_count s1 pid ≥ pool.max_riders then
      { s1 with pools := s1.pools.map (fun p =>
          if p.id == pid then { p with status := "filled", closed_at := some now } else p) }
    else
      s1

/-! ### Ride request and cancellation endpoints (rides/views.py) -/

/-- request_ride: store the new request, then join the first matching pool
or create a new one. Returns the state and the id of the pool joined or
created. Fare bookkeeping is omitted (no verified property reads fares). -/
noncomputable def request_ride (now : Int) (rr : RideRequest) (s : DB) : DB × Nat :=
  let s0 := { s with requests := s.requests ++ [rr] }
  match find_matching_pools now rr s0 with
  | [] => create_pool now rr s0
  | pool :: _ => (add_to_pool now rr pool.id s0, pool.id)

/-- Outcome of the cancel_ride endpoint: a 404 from get_object, the 400
"Ride cannot be cancelled" response, or the NameError crash (HTTP 500). -/
inductive CancelResult
  | not_found
  | rejected
  | name_error
  deriving DecidableEq

/-- Embeds RideRequestViewSet.cancel_ride (rides/views.py). For a
cancellable request the view saves status = cancelled, then evaluates
PoolMembership.objects.filter(...) — but rides/views.py imports only
RideRequest, Pool and Trip from .models, so the name PoolMembership is
unbound there and the line raises NameError: the view aborts with a server
error and the pool-cancellation / membership-deletion code below it is
dead. Only the request-status write survives; pools and memberships are
never mutated by cancellation. -/
def cancel_ride (req_id : Nat) (s : DB) : DB × CancelResult :=
  match s.requests.find? (fun r => r.id == req_id) with
  | none => (s, CancelResult.not_found)
  | some rr =>
    if rr.status = "completed" ∨ rr.status = "cancelled" then (s, CancelResult.rejected)
    else
      ({ s with requests := s.requests.map (fun (r : RideRequest) =>
          if r.id == req_id then { r with status := "cancelled" } else r) },
       CancelResult.name_error)

/-! ### Driver acceptance (matching/tasks.py driver_accept_pool and
drivers/services.py DriverAssignmentService.assign_driver_to_pool) -/

/-- driver_accept_pool: fetch the driver by id and the pool by id with
status filled; if both exist, create the Trip, set the pool to
driver_assigned and the driver to unavailable, and return the trip id.
Any lookup failure returns None with no state change. The driver's
is_available flag is never consulted. -/
def driver_accept_pool (driver_id pool_id : Nat) (s : DB) : DB × Option Nat :=
  match s.drivers.find? (fun d => d.id == driver_id),
        s.pools.find? (fun p => p.id == pool_id && p.status == "filled") with
  | some _, some _ =>
    let tid := next_trip_id s
    ({ s with
        trips := s.trips ++ [{ id := tid, pool_id := pool_id, driver_id := driver_id }],
        pools := s.pools.map (fun p =>
          if p.id == pool_id then { p with status := "driver_assigned" } else p),
        drivers := s.drivers.map (fun d =>
          if d.id == driver_id then { d with is_available := false } else d) },
     some tid)
  | _, _ => (s, none)

/-! ### Expiry sweep (matching/tasks.py close_expired_pools) -/

/-- close_expired_pools: every pool with status open and
created_at ≤ now - 10 minutes becomes expired; all other pools are
untouched (the per-pool rider notification is a separate deferred task). -/
def close_expired_pools (now : Int) (s : DB) : DB :=
  { s with pools := s.pools.map (fun p =>
      if p.status == "open" && decide (p.created_at ≤ now - 10) then
        { p with status := "expired" }
      else p) }

/-! ### The reachable-state transition system -/

/-- DriverAssignmentService._calculate_pool_centroid (drivers/services.py):
None on a memberless pool, else the mean of the member pickups. -/
noncomputable def calculate_pool_centroid (s : DB) (pid : Nat) : Option (ℝ × ℝ) :=
  let members := memberships_of s.memberships pid
  if members.isEmpty then none
  else
    some (((members.map (fun m => m.ride_request.pickup_latitude)).sum / members.length),
          ((members.map (fun m => m.ride_request.pickup_longitude)).sum / members.length))

/-- The empty store. -/
def init_db : DB :=
  { requests := [], pools := [], memberships := [], drivers := [], trips := [] }

/-- One engine-level step: an incoming ride request, a rider cancellation,
a driver acceptance, an expiry-sweep run, or a driver registration. -/
inductive Step : DB → DB → Prop
  | request (now : Int) (rr : RideRequest) (s : DB) :
      Step s (request_ride now rr s).1
  | cancel (req_id : Nat) (s : DB) :
      Step s (cancel_ride req_id s).1
  | accept (driver_id pool_id : Nat) (s : DB) :
      Step s (driver_accept_pool driver_id pool_id s).1
  | sweep (now : Int) (s : DB) :
      Step s (close_expired_pools now s)
  | register_driver (d : Driver) (s : DB) :
      Step s { s with drivers := s.drivers ++ [d] }

/-- States reachable from the empty store. -/
inductive Reachable : DB → Prop
  | init : Reachable init_db
  | step {s s' : DB} : Reachable s → Step s s' → Reachable s'

/-! ### Spec-side definitions used for refinement comparisons -/

/-- Modelled from the spec: centroid(points) is the arithmetic mean of the
latitudes and longitudes, and is undefined (an error) on empty input. -/
noncomputable def centroid_spec (points : List (ℝ × ℝ)) : Option (ℝ × ℝ) :=
  match points with
  | [] => none
  | _ => some ((points.map Prod.fst).sum / points.length,
               (points.map Prod.snd).sum / points.length)

/-! ### C8: the expiry sweep -/

/-- The boundary pool for C8: open, created exactly max_wait_time ago. -/
def c8_pool : Pool :=
  { id := 1, status := "open", max_riders := 4, max_wait_time := 10,
    created_at := 0, closed_at := none }

def c8_db : DB :=
  { requests := [], pools := [c8_pool], memberships := [], drivers := [], trips := [] }

/-- Claim C8 (counterexample): at time now = 10 the pool created at time 0
has age exactly max_wait_time, not greater, yet one run of
close_expired_pools transitions it to expired. -/
theorem c8_sweep_expires_at_exact_boundary :
    ((close_expired_pools 10 c8_db).pools.map (fun p => p.status) = ["expired"]) ∧
    ¬ (10 - c8_pool.created_at > max_wait_time) := by
  decide

/-- Claim C8 (amended): one run of the expiry sweep transitions to expired
exactly those pools with status open and age at least max_wait_time
(created_at ≤ now − 10), leaving all other pools unchanged; running the
sweep again immediately is a no-op. -/
theorem close_expired_pools_spec (now : Int) (s : DB) :
    ((close_expired_pools now s).pools = s.pools.map (fun p =>
        if p.status = "open" ∧ 10 ≤ now - p.created_at then
          { p with status := "expired" } else p)) ∧
    close_expired_pools now (close_expired_pools now s) = close_expired_pools now s := by
  constructor
  · unfold close_expired_pools
    refine List.map_congr_left (fun p _ => ?_)
    by_cases hs : p.status = "open"
    · by_cases ht : p.created_at ≤ now - 10
      · have hb : (p.status == "open" && decide (p.created_at ≤ now - 10)) = true := by
          simp [hs, ht]
        rw [if_pos hb, if_pos ⟨hs, by omega⟩]
      · have hb : ¬ ((p.status == "open" && decide (p.created_at ≤ now - 10)) = true) := by
          simp [hs, ht]
        rw [if_neg hb, if_neg (fun hc => ht (by omega))]
    · have hb : ¬ ((p.status == "open" && decide (p.created_at ≤ now - 10)) = true) := by
        simp [hs]
      rw [if_neg hb, if_neg (fun hc => hs hc.1)]
  · unfold close_expired_pools
    cases s with
    | mk requests pools memberships drivers trips =>
      simp only [List.map_map, DB.mk.injEq, and_true, true_and]
      refine List.map_congr_left (fun p _ => ?_)
      show (fun q : Pool => if q.status == "open" && decide (q.created_at ≤ now - 10) then
          { q with status := "expired" } else q)
        ((fun q : Pool => if q.status == "open" && decide (q.created_at ≤ now - 10) then
          { q with status := "expired" } else q) p) = _
      by_cases hb : (p.status == "open" && decide (p.created_at ≤ now - 10)) = true
      · simp only [hb, if_pos]
        have hb2 : ¬ ((({ p with status := "expired" } : Pool).status == "open" &&
            decide (({ p with status := "expired" } : Pool).created_at ≤ now - 10)) = true) := by
          simp
        simp only [if_neg hb2]
      · simp only [if_neg hb]

/-- Witness for close_expired_pools_spec at a concrete store: the boundary
pool is mapped to expired and the double sweep equals the single sweep. -/
theorem close_expired_pools_spec_witness :
    ((close_expired_pools 10 c8_db).pools = c8_db.pools.map (fun p =>
        if p.status = "open" ∧ 10 ≤ (10 : Int) - p.created_at then
          { p with status := "expired" } else p)) ∧
    close_expired_pools 10 (close_expired_pools 10 c8_db) = close_expired_pools 10 c8_db :=
  close_expired_pools_spec 10 c8_db

/-! ### C9: the centroid -/

/-- Claim C9 (counterexample): on the empty list the matching service's
centroid is not an error: it returns the value (0, 0), while the
spec-modelled centroid is undefined there. -/
theorem centroid_empty_returns_value :
    calculate_centroid [] = ((0 : ℝ), (0 : ℝ)) ∧ centroid_spec [] = none := by
  constructor
  · simp [calculate_centroid]
  · rfl

/-- Claim C9 (amended): on every non-empty list the centroid is the
arithmetic mean of the latitudes and of the longitudes (agreeing with the
spec-modelled centroid), and the centroid of {(0,0),(2,0)} is (1,0); on the
empty list PoolMatchingService._calculate_centroid returns the value (0, 0)
and DriverAssignmentService._calculate_pool_centroid returns None — neither
signals an error. -/
theorem centroid_is_mean (points : List (ℝ × ℝ)) (hne : points ≠ []) :
    some (calculate_centroid points) = centroid_spec points ∧
    calculate_centroid [] = ((0 : ℝ), (0 : ℝ)) ∧
    calculate_centroid [((0 : ℝ), (0 : ℝ)), (2, 0)] = (1, 0) ∧
    (∀ (s : DB) (pid : Nat), memberships_of s.memberships pid = [] →
      calculate_pool_centroid s pid = none) := by
  refine ⟨?_, by simp [calculate_centroid], ?_, ?_⟩
  · cases points with
    | nil => exact absurd rfl hne
    | cons a rest => simp [calculate_centroid, centroid_spec]
  · rw [calculate_centroid, if_neg (by simp)]
    norm_num
  · intro s pid h
    simp [calculate_pool_centroid, h]

/-- Witness for centroid_is_mean on the two-point list from the spec. -/
theorem centroid_is_mean_witness :
    some (calculate_centroid [((0 : ℝ), (0 : ℝ)), (2, 0)]) =
      centroid_spec [((0 : ℝ), (0 : ℝ)), (2, 0)] :=
  (centroid_is_mean [((0 : ℝ), (0 : ℝ)), (2, 0)] (by simp)).1

/-! ### C5: driver acceptance -/

def c5_driver : Driver :=
  { id := 1, max_capacity := 4, is_available := false,
    current_latitude := none, current_longitude := none }

def c5_pool : Pool :=
  { id := 1, status := "filled", max_riders := 4, max_wait_time := 10,
    created_at := 0, closed_at := some 0 }

def c5_db : DB :=
  { requests := [], pools := [c5_pool], memberships := [], drivers := [c5_driver],
    trips := [] }

/-- Claim C5 (counterexample): acceptance by a driver whose is_available is
false succeeds anyway — a Trip is created for the filled pool even though
the accepting driver is unavailable, because driver_accept_pool never
consults the availability flag. -/
theorem driver_accept_ignores_availability :
    (driver_accept_pool 1 1 c5_db).2 = some 1 ∧
    (∀ d ∈ c5_db.drivers, d.is_available = false) := by
  decide

/-- Helper: when no pool row with the given id currently has status filled,
driver_accept_pool rejects with no state change. -/
theorem accept_rejected_of_no_filled_pool (did2 pid : Nat) (t : DB)
    (h : t.pools.find? (fun p => p.id == pid && p.status == "filled") = none) :
    driver_accept_pool did2 pid t = (t, none) := by
  unfold driver_accept_pool
  rw [h]
  cases t.drivers.find? (fun d => d.id == did2) <;> rfl

/-- Claim C5 (amended): driver acceptance succeeds exactly when a driver row
with the given id exists and the pool has status filled — the driver's
is_available flag is not checked. A successful accept appends exactly one
Trip, sets every pool with that id to driver_assigned and the driver's
is_available to false; a failed accept changes nothing; and a later accept
against the same pool is rejected with no Trip created and no state
change. -/
theorem driver_accept_pool_spec (did pid : Nat) (s : DB) :
    ((driver_accept_pool did pid s).2.isSome ↔
        (∃ d ∈ s.drivers, d.id = did) ∧ (∃ p ∈ s.pools, p.id = pid ∧ p.status = "filled")) ∧
    ((driver_accept_pool did pid s).2 = none → (driver_accept_pool did pid s).1 = s) ∧
    (∀ tid, (driver_accept_pool did pid s).2 = some tid →
      (driver_accept_pool did pid s).1.trips =
        s.trips ++ [{ id := tid, pool_id := pid, driver_id := did }] ∧
      (∀ p ∈ (driver_accept_pool did pid s).1.pools, p.id = pid →
        p.status = "driver_assigned") ∧
      (∀ d ∈ (driver_accept_pool did pid s).1.drivers, d.id = did →
        d.is_available = false) ∧
      (∀ did2, driver_accept_pool did2 pid (driver_accept_pool did pid s).1 =
        ((driver_accept_pool did pid s).1, none))) := by
  rcases hd : s.drivers.find? (fun d => d.id == did) with _ | d <;>
    rcases hp : s.pools.find? (fun p => p.id == pid && p.status == "filled") with _ | p
  · have he : driver_accept_pool did pid s = (s, none) := by
      unfold driver_accept_pool
      rw [hd, hp]
    refine ⟨?_, fun _ => by rw [he], fun tid htid => by rw [he] at htid; cases htid⟩
    rw [he]
    simp only [Option.isSome_none, Bool.false_eq_true, false_iff]
    rintro ⟨⟨d, hdm, hdi⟩, -⟩
    exact absurd (by simp [hdi]) (List.find?_eq_none.mp hd d hdm)
  · have he : driver_accept_pool did pid s = (s, none) := by
      unfold driver_accept_pool
      rw [hd, hp]
    refine ⟨?_, fun _ => by rw [he], fun tid htid => by rw [he] at htid; cases htid⟩
    rw [he]
    simp only [Option.isSome_none, Bool.false_eq_true, false_iff]
    rintro ⟨⟨d2, hdm, hdi⟩, -⟩
    exact absurd (by simp [hdi]) (List.find?_eq_none.mp hd d2 hdm)
  · have he : driver_accept_pool did pid s = (s, none) := by
      unfold driver_accept_pool
      rw [hd, hp]
    refine ⟨?_, fun _ => by rw [he], fun tid htid => by rw [he] at htid; cases htid⟩
    rw [he]
    simp only [Option.isSome_none, Bool.false_eq_true, false_iff]
    rintro ⟨-, ⟨q, hqm, hqi, hqs⟩⟩
    exact absurd (by simp [hqi, hqs]) (List.find?_eq_none.mp hp q hqm)
  · have he : driver_accept_pool did pid s =
        ({ s with
            trips := s.trips ++
              [{ id := next_trip_id s, pool_id := pid, driver_id := did }],
            pools := s.pools.map (fun p =>
              if p.id == pid then { p with status := "driver_assigned" } else p),
            drivers := s.drivers.map (fun d =>
              if d.id == did then { d with is_available := false } else d) },
         some (next_trip_id s)) := by
      unfold driver_accept_pool
      rw [hd, hp]
    refine ⟨?_, ?_, ?_⟩
    · rw [he]
      simp only [Option.isSome_some, true_iff]
      refine ⟨⟨d, List.mem_of_find?_eq_some hd, by simpa using List.find?_some hd⟩, ?_⟩
      have hc := List.find?_some hp
      simp only [Bool.and_eq_true, beq_iff_eq] at hc
      exact ⟨p, List.mem_of_find?_eq_some hp, hc.1, hc.2⟩
    · intro hnone
      rw [he] at hnone
      cases hnone
    · intro tid htid
      rw [he] at htid
      have htid' : tid = next_trip_id s := by
        cases htid
        rfl
      subst htid'
      refine ⟨by rw [he], ?_, ?_, ?_⟩
      · intro q hq hqid
        rw [he] at hq
        rcases List.mem_map.mp hq with ⟨q0, hq0, rfl⟩
        by_cases hb : (q0.id == pid) = true
        · rw [if_pos hb]
        · rw [if_neg hb] at hqid
          exact absurd (by simp [hqid]) hb
      · intro d2 hd2 hd2id
        rw [he] at hd2
        rcases List.mem_map.mp hd2 with ⟨d0, hd0, rfl⟩
        by_cases hb : (d0.id == did) = true
        · rw [if_pos hb]
        · rw [if_neg hb] at hd2id
          exact absurd (by simp [hd2id]) hb
      · intro did2
        apply accept_rejected_of_no_filled_pool
        rw [he]
        rw [List.find?_eq_none]
        intro q hq
        rcases List.mem_map.mp hq with ⟨q0, hq0, rfl⟩
        by_cases hb : (q0.id == pid) = true
        · rw [if_pos hb]
          simp
        · rw [if_neg hb]
          simp only [Bool.and_eq_true, beq_iff_eq, not_and]
          intro hqi
          exact absurd (by simp [hqi]) hb

/-- Witness for driver_accept_pool_spec: on the concrete store the accept
creates exactly the one expected Trip. -/
theorem driver_accept_pool_spec_witness :
    (driver_accept_pool 1 1 c5_db).1.trips =
      [{ id := 1, pool_id := 1, driver_id := 1 }] := by
  have h := ((driver_accept_pool_spec 1 1 c5_db).2.2 1 (by decide)).1
  simpa using h

/-! ### C6: sequencing orders -/

/-- The keys of dict_set: unchanged when the key is present, appended
otherwise. -/
theorem keys_dict_set (d : List (Nat × Nat)) (k v : Nat) :
    (dict_set d k v).map (fun e => e.1) =
      if d.any (fun e => e.1 == k) then d.map (fun e => e.1)
      else d.map (fun e => e.1) ++ [k] := by
  unfold dict_set
  by_cases h : d.any (fun e => e.1 == k) = true
  · rw [if_pos h, if_pos h, List.map_map]
    refine List.map_congr_left (fun e _ => ?_)
    by_cases hb : (e.1 == k) = true
    · simp only [Function.comp_apply, if_pos hb]
      exact (beq_iff_eq.mp hb).symm
    · simp only [Function.comp_apply, if_neg hb]
  · rw [if_neg h, if_neg h, List.map_append]
    rfl

/-- The keys accumulated by the _assign_orders counter loop are the initial
keys plus the processed ids. -/
theorem mem_keys_assign_orders_loop (ids : List Nat) (c : Nat) (d : List (Nat × Nat))
    (i : Nat) :
    (i ∈ (assign_orders_loop ids c d).map (fun e => e.1)) ↔
      i ∈ d.map (fun e => e.1) ∨ i ∈ ids := by
  induction ids generalizing c d with
  | nil => simp [assign_orders_loop]
  | cons k rest ih =>
    show (i ∈ (assign_orders_loop rest (c + 1) (dict_set d k c)).map (fun e => e.1)) ↔ _
    rw [ih, keys_dict_set]
    by_cases h : d.any (fun e => e.1 == k) = true
    · rw [if_pos h]
      rcases List.any_eq_true.mp h with ⟨e, he, hek⟩
      have hk : k ∈ d.map (fun e => e.1) :=
        List.mem_map.mpr ⟨e, he, beq_iff_eq.mp hek⟩
      constructor
      · rintro (hd | hr)
        · exact Or.inl hd
        · exact Or.inr (List.mem_cons_of_mem _ hr)
      · rintro (hd | hkr)
        · exact Or.inl hd
        · rcases List.mem_cons.mp hkr with rfl | hr
          · exact Or.inl hk
          · exact Or.inr hr
    · rw [if_neg h]
      simp only [List.mem_append, List.mem_singleton, List.mem_cons]
      tauto

/-- The counter loop keeps dict keys without duplicates. -/
theorem keys_nodup_assign_orders_loop (ids : List Nat) (c : Nat) (d : List (Nat × Nat))
    (hd : (d.map (fun e => e.1)).Nodup) :
    ((assign_orders_loop ids c d).map (fun e => e.1)).Nodup := by
  induction ids generalizing c d with
  | nil => exact hd
  | cons k rest ih =>
    refine ih (c + 1) (dict_set d k c) ?_
    rw [keys_dict_set]
    by_cases h : d.any (fun e => e.1 == k) = true
    · rw [if_pos h]
      exact hd
    · rw [if_neg h]
      have hk : k ∉ d.map (fun e => e.1) := by
        intro hmem
        rcases List.mem_map.mp hmem with ⟨e, he, hek⟩
        exact h (List.any_eq_true.mpr ⟨e, he, beq_iff_eq.mpr hek⟩)
      simp [List.nodup_append, hk, hd]

/-- On pairwise-distinct ids the counter loop just zips the ids with the
consecutive counters. -/
theorem assign_orders_loop_of_nodup (ids : List Nat) (c : Nat) (d : List (Nat × Nat))
    (hnd : ids.Nodup) (hfresh : ∀ i ∈ ids, i ∉ d.map (fun e => e.1)) :
    assign_orders_loop ids c d = d ++ ids.zip (List.range' c ids.length) := by
  induction ids generalizing c d with
  | nil => simp [assign_orders_loop]
  | cons k rest ih =>
    have hkd : ¬ (d.any (fun e => e.1 == k) = true) := by
      intro h
      rcases List.any_eq_true.mp h with ⟨e, he, hek⟩
      exact hfresh k (List.mem_cons_self k rest)
        (List.mem_map.mpr ⟨e, he, beq_iff_eq.mp hek⟩)
    show assign_orders_loop rest (c + 1) (dict_set d k c) = _
    rw [show dict_set d k c = d ++ [(k, c)] from by unfold dict_set; rw [if_neg hkd]]
    rw [ih (c + 1) (d ++ [(k, c)]) (List.Nodup.of_cons hnd) ?_]
    · rw [List.length_cons, List.range'_succ, List.zip_cons_cons, List.append_assoc]
      rfl
    · intro i hi
      rw [List.map_append]
      simp only [List.mem_append, List.map_cons, List.map_nil, List.mem_singleton]
      rintro (hid | rfl)
      · exact hfresh i (List.mem_cons_of_mem _ hi) hid
      · exact (List.nodup_cons.mp hnd).1 hi

def c6_req : RideRequest :=
  { id := 7, pickup_latitude := 0, pickup_longitude := 0,
    destination_latitude := 0, destination_longitude := 0, status := "pending" }

/-- Claim C6 (counterexample): on the duplicate input [r, r] (one distinct
request, N = 1) the optimizer's pickup-order dict holds the single value 2,
which is not a permutation of 1..1 — the second dict assignment overwrites
the first, skipping order 1. -/
theorem optimize_route_orders_not_permutation_on_duplicates :
    dict_values (optimize_route [c6_req, c6_req]).pickup_orders = [2] ∧
    ¬ (dict_values (optimize_route [c6_req, c6_req]).pickup_orders).Perm
        (List.range' 1 1) := by
  have h : dict_values (optimize_route [c6_req, c6_req]).pickup_orders = [2] := rfl
  exact ⟨h, by rw [h]; decide⟩

/-- Claim C6 (amended): the optimizer's result always has exactly one
pickup-order and one dropoff-order entry per distinct request id (the two
dicts are equal, their keys are duplicate-free and are exactly the input
ids); when the input ids are pairwise distinct the pickup-order values and
the dropoff-order values are each the list 1..N in input order, hence a
permutation of 1..N. With duplicated ids the later counter assignment
overwrites the earlier one, so the values may skip. -/
theorem optimize_route_orders_spec (rs : List RideRequest) :
    (optimize_route rs).dropoff_orders = (optimize_route rs).pickup_orders ∧
    ((optimize_route rs).pickup_orders.map (fun e => e.1)).Nodup ∧
    (∀ i, (i ∈ (optimize_route rs).pickup_orders.map (fun e => e.1)) ↔
        i ∈ rs.map (fun r => r.id)) ∧
    ((rs.map (fun r => r.id)).Nodup →
      dict_values (optimize_route rs).pickup_orders = List.range' 1 rs.length) := by
  unfold optimize_route
  by_cases h : rs.length = 1
  · rw [dif_pos h]
    match rs, h with
    | [a], _ =>
      refine ⟨rfl, by simp [simple_route], ?_, ?_⟩
      · intro i
        simp [simple_route]
      · intro _
        rfl
  · rw [dif_neg h]
    refine ⟨rfl, ?_, ?_, ?_⟩
    · exact keys_nodup_assign_orders_loop _ 1 [] (by simp)
    · intro i
      rw [show (assign_orders (generate_feasible_sequence rs) rs).pickup_orders =
            assign_orders_loop (rs.map (fun r => r.id)) 1 [] from rfl]
      rw [mem_keys_assign_orders_loop]
      simp
    · intro hnd
      rw [show (assign_orders (generate_feasible_sequence rs) rs).pickup_orders =
            assign_orders_loop (rs.map (fun r => r.id)) 1 [] from rfl]
      rw [assign_orders_loop_of_nodup _ 1 [] hnd (by simp)]
      rw [List.nil_append]
      unfold dict_values
      rw [List.map_snd_zip]
      · rw [List.length_map]
      · rw [List.length_range', List.length_map]

/-- Witness for optimize_route_orders_spec: two distinct requests yield
pickup-order values [1, 2]. -/
theorem optimize_route_orders_spec_witness :
    dict_values (optimize_route [c6_req, { c6_req with id := 8 }]).pickup_orders =
      List.range' 1 2 :=
  (optimize_route_orders_spec [c6_req, { c6_req with id := 8 }]).2.2.2 (by decide)

/-! ### C7: ride cancellation -/

def c7_req : RideRequest :=
  { id := 1, pickup_latitude := 0, pickup_longitude := 0,
    destination_latitude := 0, destination_longitude := 0, status := "matched" }

def c7_db : DB :=
  { requests := [c7_req],
    pools := [{ id := 1, status := "open", max_riders := 4, max_wait_time := 10,
                created_at := 0, closed_at := none }],
    memberships := [{ pool_id := 1, ride_request := c7_req,
                      pickup_order := 1, dropoff_order := 1 }],
    drivers := [], trips := [] }

/-- Claim C7 (the code evaluated at the failing input): cancelling the sole
member of a one-member pool marks the ride request cancelled and then
aborts with the NameError — the pool stays open and the membership table is
untouched. The pool-cancellation and membership-deletion the claim
describes (rides/views.py lines 98-108) are dead code, because the module
never imports PoolMembership. -/
theorem cancel_ride_hits_name_error :
    (cancel_ride 1 c7_db).2 = CancelResult.name_error ∧
    (cancel_ride 1 c7_db).1.pools.map (fun p => p.status) = ["open"] ∧
    (cancel_ride 1 c7_db).1.memberships = c7_db.memberships ∧
    (cancel_ride 1 c7_db).1.requests.map (fun r => r.status) = ["cancelled"] :=
  ⟨rfl, rfl, rfl, rfl⟩

/-! ### Haversine facts -/

/-- atan2 is positive on the open upper half of the closed right half-plane. -/
theorem atan2_pos_of_pos_of_nonneg {y x : ℝ} (hy : 0 < y) (hx : 0 ≤ x) :
    0 < atan2 y x := by
  unfold atan2
  rcases lt_or_eq_of_le hx with hx' | hx'
  · rw [if_pos hx']
    have h := Real.arctan_strictMono (div_pos hy hx')
    rwa [Real.arctan_zero] at h
  · rw [if_neg (by rw [← hx']; exact lt_irrefl 0),
      if_neg (by rw [← hx']; exact lt_irrefl 0), if_pos hy]
    positivity

/-- The haversine distance from a point to itself is zero. -/
theorem haversine_self (lat lon : ℝ) : haversine_distance lat lon lat lon = 0 := by
  unfold haversine_distance
  simp [atan2, Real.arctan_zero]

/-- The haversine distance from (0,0) to (1,0) is positive (one degree of
latitude). -/
theorem haversine_zero_one_pos : 0 < haversine_distance 0 0 1 0 := by
  unfold haversine_distance radians
  have hsin : 0 < Real.sin ((1 * Real.pi / 180 - 0 * Real.pi / 180) / 2) := by
    have h1 : (1 * Real.pi / 180 - 0 * Real.pi / 180) / 2 = Real.pi / 360 := by ring
    rw [h1]
    exact Real.sin_pos_of_pos_of_lt_pi (by positivity)
      (div_lt_self Real.pi_pos (by norm_num))
  have hc : 0 < atan2
      (Real.sqrt (Real.sin ((1 * Real.pi / 180 - 0 * Real.pi / 180) / 2) ^ 2 +
        Real.cos (0 * Real.pi / 180) * Real.cos (1 * Real.pi / 180) *
          Real.sin ((0 * Real.pi / 180 - 0 * Real.pi / 180) / 2) ^ 2))
      (Real.sqrt (1 - (Real.sin ((1 * Real.pi / 180 - 0 * Real.pi / 180) / 2) ^ 2 +
        Real.cos (0 * Real.pi / 180) * Real.cos (1 * Real.pi / 180) *
          Real.sin ((0 * Real.pi / 180 - 0 * Real.pi / 180) / 2) ^ 2))) := by
    apply atan2_pos_of_pos_of_nonneg
    · apply Real.sqrt_pos.mpr
      have h0 : Real.sin ((0 * Real.pi / 180 - 0 * Real.pi / 180) / 2) = 0 := by
        norm_num
      rw [h0]
      nlinarith [hsin]
    · exact Real.sqrt_nonneg _
  positivity

/-! ### C2: the route-distance estimate -/

def pickup_pt (r : RideRequest) : ℝ × ℝ := (r.pickup_latitude, r.pickup_longitude)

def dest_pt (r : RideRequest) : ℝ × ℝ := (r.destination_latitude, r.destination_longitude)

/-- A request's own pickup-to-destination haversine leg. -/
noncomputable def own_leg (r : RideRequest) : ℝ :=
  haversine_distance r.pickup_latitude r.pickup_longitude
    r.destination_latitude r.destination_longitude

/-- The leg from one request's destination to the next one's pickup, skipped
when the two points coincide exactly. -/
noncomputable def connector (a b : RideRequest) : ℝ :=
  if dest_pt a ≠ pickup_pt b then
    haversine_distance (dest_pt a).1 (dest_pt a).2 (pickup_pt b).1 (pickup_pt b).2
  else 0

/-- The leg from the current position to the first pickup of the list,
skipped when they coincide exactly. -/
noncomputable def head_leg (cur : ℝ × ℝ) : List RideRequest → ℝ
  | [] => 0
  | r :: _ =>
    if cur ≠ pickup_pt r then
      haversine_distance cur.1 cur.2 (pickup_pt r).1 (pickup_pt r).2
    else 0

/-- Closed form of the estimate's accumulation loop: the leg into the first
pickup, plus every request's own leg, plus each destination-to-next-pickup
connector. -/
theorem route_legs_closed_form (rs : List RideRequest) :
    ∀ cur : ℝ × ℝ, route_legs cur rs =
      head_leg cur rs + (rs.map own_leg).sum +
      ((rs.zip rs.tail).map (fun pr => connector pr.1 pr.2)).sum := by
  induction rs with
  | nil => intro cur; simp [route_legs, head_leg]
  | cons r rest ih =>
    intro cur
    show (if cur ≠ pickup_pt r then
        haversine_distance cur.1 cur.2 (pickup_pt r).1 (pickup_pt r).2 else 0) +
      own_leg r + route_legs (dest_pt r) rest = _
    rw [ih (dest_pt r)]
    cases rest with
    | nil => simp [head_leg]
    | cons b t =>
      simp only [List.tail_cons, List.zip_cons_cons, List.map_cons, List.sum_cons]
      rw [show head_leg (dest_pt r) (b :: t) = connector r b from rfl,
        show head_leg cur (r :: b :: t) = (if cur ≠ pickup_pt r then
          haversine_distance cur.1 cur.2 (pickup_pt r).1 (pickup_pt r).2 else 0) from rfl]
      ring

/-- Modelled from the spec sentence under test (claim C2): "the sum of
consecutive pickup-to-pickup legs (following input order) plus each
request's own pickup-to-destination leg", with the identical-requests
special case. -/
noncomputable def spec_route_estimate (rs : List RideRequest) : ℝ :=
  match rs with
  | [] => 0
  | first :: _ =>
    if all_requests_identical rs then own_leg first
    else
      ((rs.zip rs.tail).map (fun pr =>
        haversine_distance (pickup_pt pr.1).1 (pickup_pt pr.1).2
          (pickup_pt pr.2).1 (pickup_pt pr.2).2)).sum +
      (rs.map own_leg).sum

/-- The amended description of the estimate: identical requests collapse to
one shared leg; otherwise sum each request's own leg plus, for each
consecutive pair, the leg from the previous request's destination to the
next request's pickup, skipped when those two points coincide exactly. -/
noncomputable def amended_route_estimate (rs : List RideRequest) : ℝ :=
  match rs with
  | [] => 0
  | first :: _ =>
    if all_requests_identical rs then own_leg first
    else
      (rs.map own_leg).sum +
      ((rs.zip rs.tail).map (fun pr => connector pr.1 pr.2)).sum

def c2A : RideRequest :=
  { id := 1, pickup_latitude := 0, pickup_longitude := 0,
    destination_latitude := 1, destination_longitude := 0, status := "pending" }

def c2B : RideRequest :=
  { id := 2, pickup_latitude := 1, pickup_longitude := 0,
    destination_latitude := 2, destination_longitude := 0, status := "pending" }

theorem c2_not_identical : ¬ all_requests_identical [c2A, c2B] := by
  intro h
  have hb := h c2B (by simp)
  rw [show c2A.pickup_latitude = (0 : ℝ) from rfl,
    show c2B.pickup_latitude = (1 : ℝ) from rfl] at hb
  norm_num at hb

/-- Claim C2 (counterexample): on the two requests (0,0)→(1,0) and
(1,0)→(2,0) the code's estimate walks through the first destination — the
leg to the second pickup vanishes because it coincides with the first
destination — while the claimed formula adds a positive pickup-to-pickup
leg, so the two values differ. -/
theorem route_estimate_differs_from_claim :
    estimate_pool_route_distance [c2A, c2B] ≠ spec_route_estimate [c2A, c2B] := by
  have h1 : estimate_pool_route_distance [c2A, c2B] =
      haversine_distance 0 0 1 0 + haversine_distance 1 0 2 0 := by
    show (if all_requests_identical [c2A, c2B] then _ else _) = _
    rw [if_neg c2_not_identical]
    show (if ((0 : ℝ), (0 : ℝ)) ≠ ((0 : ℝ), (0 : ℝ)) then _ else 0) + _ + _ = _
    rw [if_neg (by simp)]
    show 0 + haversine_distance 0 0 1 0 +
      ((if ((1 : ℝ), (0 : ℝ)) ≠ ((1 : ℝ), (0 : ℝ)) then _ else 0) +
        haversine_distance 1 0 2 0 + 0) = _
    rw [if_neg (by simp)]
    ring
  have h2 : spec_route_estimate [c2A, c2B] =
      haversine_distance 0 0 1 0 +
        (haversine_distance 0 0 1 0 + haversine_distance 1 0 2 0) := by
    show (if all_requests_identical [c2A, c2B] then _ else _) = _
    rw [if_neg c2_not_identical]
    show haversine_distance 0 0 1 0 + 0 +
      (haversine_distance 0 0 1 0 + (haversine_distance 1 0 2 0 + 0)) = _
    ring
  rw [h1, h2]
  intro h
  have := haversine_zero_one_pos
  linarith

/-- Claim C2 (amended): the estimate equals the single shared leg in the
identical case and otherwise the sum of each request's own leg plus the
destination-to-next-pickup connectors in input order. -/
theorem route_estimate_closed_form (rs : List RideRequest) :
    estimate_pool_route_distance rs = amended_route_estimate rs := by
  cases rs with
  | nil => rfl
  | cons first rest =>
    show (if all_requests_identical (first :: rest) then
        haversine_distance first.pickup_latitude first.pickup_longitude
          first.destination_latitude first.destination_longitude
      else route_legs (first.pickup_latitude, first.pickup_longitude) (first :: rest)) =
      (if all_requests_identical (first :: rest) then own_leg first
      else (List.map own_leg (first :: rest)).sum +
        (List.map (fun pr => connector pr.1 pr.2)
          ((first :: rest).zip (first :: rest).tail)).sum)
    by_cases h : all_requests_identical (first :: rest)
    · rw [if_pos h, if_pos h]
      rfl
    · rw [if_neg h, if_neg h]
      rw [route_legs_closed_form (first :: rest) (first.pickup_latitude, first.pickup_longitude)]
      rw [show head_leg (first.pickup_latitude, first.pickup_longitude) (first :: rest) =
        (if (first.pickup_latitude, first.pickup_longitude) ≠ pickup_pt first then
          haversine_distance first.pickup_latitude first.pickup_longitude
            (pickup_pt first).1 (pickup_pt first).2 else 0) from rfl]
      rw [if_neg (by simp [pickup_pt])]
      ring

/-! ### C3: the detour criterion -/

/-- Claim C3: with base the route estimate over current members and withNew
the estimate including the candidate, a positive base makes the check pass
exactly when the relative detour is at most 0.15; a zero base passes
unconditionally; and members sharing the candidate's exact pickup and
destination always pass. -/
theorem is_route_compatible_spec (rr : RideRequest) (members : List RideRequest) :
    (0 < estimate_pool_route_distance members →
      (is_route_compatible rr members ↔
        (estimate_pool_route_distance (members ++ [rr]) -
            estimate_pool_route_distance members) /
          estimate_pool_route_distance members ≤ max_detour_percentage)) ∧
    (estimate_pool_route_distance members = 0 → is_route_compatible rr members) ∧
    ((∀ m ∈ members,
        m.pickup_latitude = rr.pickup_latitude ∧
        m.pickup_longitude = rr.pickup_longitude ∧
        m.destination_latitude = rr.destination_latitude ∧
        m.destination_longitude = rr.destination_longitude) →
      is_route_compatible rr members) := by
  refine ⟨?_, ?_, ?_⟩
  · intro h
    simp only [is_route_compatible]
    rw [if_pos h]
  · intro h
    simp only [is_route_compatible]
    rw [if_neg (by rw [h]; exact lt_irrefl 0)]
    trivial
  · intro hsame
    cases members with
    | nil =>
      simp only [is_route_compatible]
      rw [if_neg (by show ¬ (0 : ℝ) < estimate_pool_route_distance []; simp
        [estimate_pool_route_distance])]
      trivial
    | cons m0 rest =>
      have hm0 := hsame m0 (List.mem_cons_self m0 rest)
      have hid1 : all_requests_identical (m0 :: rest) := by
        intro r hrmem
        have hr := hsame r (List.mem_cons_of_mem m0 hrmem)
        refine ⟨?_, ?_, ?_, ?_⟩ <;>
          · simp only [hm0.1, hm0.2.1, hm0.2.2.1, hm0.2.2.2,
              hr.1, hr.2.1, hr.2.2.1, hr.2.2.2, sub_self, abs_zero]
            norm_num
      have hid2 : all_requests_identical (m0 :: (rest ++ [rr])) := by
        intro r hrmem
        rcases List.mem_append.mp hrmem with hrl | hrr
        · exact hid1 r hrl
        · rcases List.mem_singleton.mp hrr with rfl
          refine ⟨?_, ?_, ?_, ?_⟩ <;>
            · simp only [hm0.1, hm0.2.1, hm0.2.2.1, hm0.2.2.2, sub_self, abs_zero]
              norm_num
      have hbase : estimate_pool_route_distance (m0 :: rest) = own_leg m0 := by
        show (if all_requests_identical (m0 :: rest) then _ else _) = _
        rw [if_pos hid1]
        rfl
      have hnew : estimate_pool_route_distance ((m0 :: rest) ++ [rr]) = own_leg m0 := by
        show (if all_requests_identical (m0 :: (rest ++ [rr])) then _ else _) = _
        rw [if_pos hid2]
        rfl
      simp only [is_route_compatible]
      rw [hbase, hnew]
      by_cases hb : (0 : ℝ) < own_leg m0
      · rw [if_pos hb, sub_self, zero_div]
        norm_num [max_detour_percentage]
      · rw [if_neg hb]
        trivial

/-- Witness for is_route_compatible_spec: a pool member identical to the
candidate always passes the detour check. -/
theorem is_route_compatible_spec_witness : is_route_compatible c2A [c2A] := by
  apply (is_route_compatible_spec c2A [c2A]).2.2
  intro m hm
  rcases List.mem_singleton.mp hm with rfl
  exact ⟨rfl, rfl, rfl, rfl⟩

/-! ### C4: the candidate search -/

/-- Claim C4: every pool returned by find_matching_pools has status open,
age at most max_wait_time, and a nonzero member count (a memberless pool is
never returned). -/
theorem find_matching_pools_spec (now : Int) (rr : RideRequest) (s : DB) (p : Pool)
    (hp : p ∈ find_matching_pools now rr s) :
    p.status = "open" ∧ now - p.created_at ≤ max_wait_time ∧
    member_count s p.id ≠ 0 := by
  unfold find_matching_pools at hp
  rcases List.mem_filter.mp hp with ⟨hp1, hp2⟩
  rcases List.mem_filter.mp hp1 with ⟨hmem, hcond⟩
  have hvalid : is_valid_match now rr s p := of_decide_eq_true hp2
  rw [Bool.and_eq_true] at hcond
  exact ⟨beq_iff_eq.mp hcond.1, hvalid.2.2.2.2, hvalid.1⟩

def c4_rr : RideRequest :=
  { id := 3, pickup_latitude := 0, pickup_longitude := 0,
    destination_latitude := 0, destination_longitude := 0, status := "pending" }

def c4_pool : Pool :=
  { id := 1, status := "open", max_riders := 4, max_wait_time := 10,
    created_at := 0, closed_at := none }

def c4_db : DB :=
  { requests := [c4_rr],
    pools := [c4_pool],
    memberships := [{ pool_id := 1, ride_request := c4_rr,
                      pickup_order := 1, dropoff_order := 1 }],
    drivers := [], trips := [] }

theorem c4_member_requests : member_requests c4_db 1 = [c4_rr] := by
  simp [member_requests, memberships_of, c4_db]

theorem c4_centroid : calculate_centroid [((0 : ℝ), (0 : ℝ))] = (0, 0) := by
  rw [calculate_centroid, if_neg (by simp)]
  norm_num

theorem c4_pool_matches : c4_pool ∈ find_matching_pools 0 c4_rr c4_db := by
  unfold find_matching_pools
  apply List.mem_filter.mpr
  refine ⟨List.mem_filter.mpr ⟨by simp [c4_db], by decide⟩, ?_⟩
  apply decide_eq_true
  show is_valid_match 0 c4_rr c4_db c4_pool
  have hid : all_requests_identical [c4_rr] := by
    intro r hr
    exact absurd hr (List.not_mem_nil r)
  have hbase : estimate_pool_route_distance [c4_rr] = 0 := by
    show (if all_requests_identical [c4_rr] then _ else _) = (0 : ℝ)
    rw [if_pos hid]
    exact haversine_self 0 0
  have hmr : member_requests c4_db c4_pool.id = [c4_rr] := c4_member_requests
  refine ⟨by decide, ?_, ?_, ?_, ?_⟩
  · rw [is_pickup_near_pool, hmr]
    refine ⟨by simp, ?_⟩
    show haversine_distance 0 0 (calculate_centroid [((0 : ℝ), (0 : ℝ))]).1
      (calculate_centroid [((0 : ℝ), (0 : ℝ))]).2 ≤ max_pickup_distance
    rw [c4_centroid]
    rw [show ((0 : ℝ), (0 : ℝ)).1 = (0 : ℝ) from rfl,
      show ((0 : ℝ), (0 : ℝ)).2 = (0 : ℝ) from rfl, haversine_self]
    norm_num [max_pickup_distance]
  · rw [is_destination_near_pool, hmr]
    refine ⟨by simp, ?_⟩
    show haversine_distance 0 0 (calculate_centroid [((0 : ℝ), (0 : ℝ))]).1
      (calculate_centroid [((0 : ℝ), (0 : ℝ))]).2 ≤ max_destination_distance
    rw [c4_centroid]
    rw [show ((0 : ℝ), (0 : ℝ)).1 = (0 : ℝ) from rfl,
      show ((0 : ℝ), (0 : ℝ)).2 = (0 : ℝ) from rfl, haversine_self]
    norm_num [max_destination_distance]
  · rw [is_route_compatible, hmr]
    rw [hbase, if_neg (lt_irrefl 0)]
    trivial
  · show (0 : Int) - c4_pool.created_at ≤ max_wait_time
    decide

/-- Witness for find_matching_pools_spec: the concrete matched pool is open,
in the window, and has a member. -/
theorem find_matching_pools_spec_witness :
    c4_pool.status = "open" ∧ (0 : Int) - c4_pool.created_at ≤ max_wait_time ∧
    member_count c4_db c4_pool.id ≠ 0 :=
  find_matching_pools_spec 0 c4_rr c4_db c4_pool c4_pool_matches

/-! ### C1 and C10: invariants of the reachable states -/

theorem le_foldr_max (l : List Nat) (x : Nat) (hx : x ∈ l) : x ≤ l.foldr max 0 := by
  induction l with
  | nil => cases hx
  | cons a t ih =>
    rcases List.mem_cons.mp hx with rfl | hxt
    · exact le_max_left _ _
    · exact le_trans (ih hxt) (le_max_right _ _)

/-- A freshly allocated pool id is not among the existing pool ids. -/
theorem next_pool_id_fresh (s : DB) : next_pool_id s ∉ s.pools.map (fun p => p.id) := by
  intro h
  have := le_foldr_max _ _ h
  unfold next_pool_id at this
  omega

/-- Two pool rows of a store with duplicate-free ids that share an id are
the same row. -/
theorem pool_eq_of_id_eq {l : List Pool} (h : (l.map (fun p => p.id)).Nodup)
    {a b : Pool} (ha : a ∈ l) (hb : b ∈ l) (hab : a.id = b.id) : a = b :=
  List.inj_on_of_nodup_map h ha hb hab

theorem memberships_of_append (ms1 ms2 : List PoolMembership) (pid : Nat) :
    memberships_of (ms1 ++ ms2) pid = memberships_of ms1 pid ++ memberships_of ms2 pid :=
  List.filter_append _ _

/-- Both branches of optimize_route produce the all-pickups-then-all-dropoffs
sequence. -/
theorem optimize_route_sequence (rs : List RideRequest) :
    (optimize_route rs).sequence = generate_feasible_sequence rs := by
  unfold optimize_route
  by_cases h : rs.length = 1
  · rw [dif_pos h]
    match rs, h with
    | [a], _ => rfl
  · rw [dif_neg h]
    rfl

/-- The unique-requests extraction keeps at most one request per id, never
an id from the seen set, and only ids occurring in the sequence. -/
theorem unique_by_id_spec (seq : List (RideRequest × Bool)) :
    ∀ seen : List Nat,
      ((unique_by_id seq seen).map (fun r => r.id)).Nodup ∧
      ∀ r ∈ unique_by_id seq seen, r.id ∉ seen ∧ r.id ∈ seq.map (fun e => e.1.id) := by
  induction seq with
  | nil => intro seen; exact ⟨List.nodup_nil, fun r hr => absurd hr (List.not_mem_nil r)⟩
  | cons e rest ih =>
    intro seen
    rcases e with ⟨rr, b⟩
    rw [show unique_by_id ((rr, b) :: rest) seen =
        (if rr.id ∈ seen then unique_by_id rest seen
         else rr :: unique_by_id rest (rr.id :: seen)) from rfl]
    by_cases hseen : rr.id ∈ seen
    · rw [if_pos hseen]
      refine ⟨(ih seen).1, fun r hr => ?_⟩
      rcases (ih seen).2 r hr with ⟨h1, h2⟩
      exact ⟨h1, List.mem_cons_of_mem _ h2⟩
    · rw [if_neg hseen]
      refine ⟨?_, ?_⟩
      · rw [List.map_cons, List.nodup_cons]
        refine ⟨?_, (ih (rr.id :: seen)).1⟩
        intro hmem
        rcases List.mem_map.mp hmem with ⟨r, hr, hrid⟩
        exact ((ih (rr.id :: seen)).2 r hr).1 (hrid ▸ List.mem_cons_self rr.id seen)
      · intro r hr
        rcases List.mem_cons.mp hr with rfl | hr2
        · exact ⟨hseen, List.mem_cons_self _ _⟩
        · rcases (ih (rr.id :: seen)).2 r hr2 with ⟨h1, h2⟩
          exact ⟨fun hc => h1 (List.mem_cons_of_mem _ hc), List.mem_cons_of_mem _ h2⟩

/-- The membership replacement creates at most one membership per request of
the optimized set: its size is bounded by the number of requests fed to the
optimizer. -/
theorem length_unique_by_id_le (rs : List RideRequest) :
    (unique_by_id (generate_feasible_sequence rs) []).length ≤ rs.length := by
  set uniq := unique_by_id (generate_feasible_sequence rs) [] with huniq
  have hspec := unique_by_id_spec (generate_feasible_sequence rs) []
  have hnd : (uniq.map (fun r => r.id)).Nodup := hspec.1
  have hsub : (uniq.map (fun r => r.id)).toFinset ⊆ (rs.map (fun r => r.id)).toFinset := by
    intro i hi
    rw [List.mem_toFinset] at hi ⊢
    rcases List.mem_map.mp hi with ⟨r, hr, rfl⟩
    have h2 := (hspec.2 r hr).2
    unfold generate_feasible_sequence at h2
    rw [List.map_append, List.map_map, List.map_map] at h2
    rcases List.mem_append.mp h2 with h3 | h3 <;>
      simpa using h3
  calc uniq.length = (uniq.map (fun r => r.id)).length := (List.length_map _ _).symm
    _ = (uniq.map (fun r => r.id)).toFinset.card := (List.toFinset_card_of_nodup hnd).symm
    _ ≤ (rs.map (fun r => r.id)).toFinset.card := Finset.card_le_card hsub
    _ ≤ (rs.map (fun r => r.id)).length := List.toFinset_card_le _
    _ = rs.length := List.length_map _ _

theorem member_count_ext (s t : DB) (h : s.memberships = t.memberships) (pid : Nat) :
    member_count s pid = member_count t pid := by
  unfold member_count
  rw [h]

theorem memberships_of_filter_ne (ms : List PoolMembership) (pid : Nat) :
    memberships_of (ms.filter (fun m => ! (m.pool_id == pid))) pid = [] := by
  unfold memberships_of
  rw [List.filter_filter]
  apply List.filter_eq_nil_iff.mpr
  intro m _
  by_cases hb : (m.pool_id == pid) = true <;> simp [hb]

theorem memberships_of_filter_other (ms : List PoolMembership) (pid q : Nat)
    (hne : q ≠ pid) :
    memberships_of (ms.filter (fun m => ! (m.pool_id == pid))) q = memberships_of ms q := by
  unfold memberships_of
  rw [List.filter_filter]
  apply List.filter_congr
  intro m _
  by_cases hb : (m.pool_id == q) = true
  · have : ¬ ((m.pool_id == pid) = true) := by
      intro hc
      exact hne ((beq_iff_eq.mp hb).symm.trans (beq_iff_eq.mp hc))
    simp [hb, this]
  · simp [hb]

theorem memberships_of_created (pid : Nat) (mkm : RideRequest → PoolMembership)
    (hpid : ∀ r, (mkm r).pool_id = pid) (l : List RideRequest) :
    memberships_of (l.map mkm) pid = l.map mkm := by
  apply List.filter_eq_self.mpr
  intro m hm
  rcases List.mem_map.mp hm with ⟨r, _, rfl⟩
  simp [hpid r]

theorem memberships_of_created_other (pid q : Nat) (mkm : RideRequest → PoolMembership)
    (hpid : ∀ r, (mkm r).pool_id = pid) (l : List RideRequest) (hne : q ≠ pid) :
    memberships_of (l.map mkm) q = [] := by
  apply List.filter_eq_nil_iff.mpr
  intro m hm
  rcases List.mem_map.mp hm with ⟨r, _, rfl⟩
  simp [hpid r]
  exact fun hc => hne hc.symm

/-- The replaced member set of the target pool is exactly the created
memberships. -/
theorem member_count_update_self (s : DB) (pid : Nat) (route : OptimizedRoute)
    (new_rr : RideRequest) :
    member_count (update_pool_members_order s pid route new_rr) pid =
      (if (unique_by_id route.sequence []).isEmpty then [new_rr]
       else unique_by_id route.sequence []).length := by
  unfold member_count update_pool_members_order
  rw [memberships_of_append, memberships_of_filter_ne, List.nil_append,
    memberships_of_created pid _ (fun r => rfl), List.length_map]

theorem member_count_update_other (s : DB) (pid q : Nat) (route : OptimizedRoute)
    (new_rr : RideRequest) (hne : q ≠ pid) :
    member_count (update_pool_members_order s pid route new_rr) q = member_count s q := by
  unfold member_count update_pool_members_order
  rw [memberships_of_append, memberships_of_filter_other _ _ _ hne,
    memberships_of_created_other pid q _ (fun r => rfl) _ hne, List.append_nil]

/-- Replacing the member set over the current members plus one new request
grows the count by at most one. -/
theorem member_count_add_self_le (s : DB) (pid : Nat) (rr : RideRequest) :
    member_count (update_pool_members_order s pid
      (optimize_route (member_requests s pid ++ [rr])) rr) pid ≤
      member_count s pid + 1 := by
  rw [member_count_update_self, optimize_route_sequence]
  have hlen : (member_requests s pid ++ [rr]).length = member_count s pid + 1 := by
    rw [List.length_append, List.length_cons, List.length_nil]
    unfold member_requests member_count
    rw [List.length_map]
  by_cases h : (unique_by_id
      (generate_feasible_sequence (member_requests s pid ++ [rr])) []).isEmpty
  · rw [if_pos h]
    rw [List.length_cons, List.length_nil]
    omega
  · rw [if_neg h]
    have := length_unique_by_id_le (member_requests s pid ++ [rr])
    omega

theorem mem_update_memberships (s : DB) (pid : Nat) (route : OptimizedRoute)
    (new_rr : RideRequest) (m : PoolMembership)
    (hm : m ∈ (update_pool_members_order s pid route new_rr).memberships) :
    m ∈ s.memberships ∨ m.pool_id = pid := by
  rcases List.mem_append.mp hm with h | h
  · exact Or.inl (List.mem_of_mem_filter h)
  · rcases List.mem_map.mp h with ⟨r, _, rfl⟩
    exact Or.inr rfl

/-- The inductive invariant behind claim C1: pool ids are duplicate-free,
memberships reference existing pools, every pool's member count is within
max_riders, and an open pool always has a seat free (the join operation
closes a pool the moment it reaches capacity). -/
def PoolInv (s : DB) : Prop :=
  (s.pools.map (fun p => p.id)).Nodup ∧
  (∀ m ∈ s.memberships, m.pool_id ∈ s.pools.map (fun p => p.id)) ∧
  ∀ p ∈ s.pools, member_count s p.id ≤ p.max_riders ∧
    (p.status = "open" → member_count s p.id < p.max_riders)

/-- Mapping a status-and-timestamps-only update over the pool table
preserves the invariant, as long as it never turns a pool open. -/
theorem pool_inv_map_status (s : DB) (f : Pool → Pool)
    (hid : ∀ p, (f p).id = p.id)
    (hmax : ∀ p, (f p).max_riders = p.max_riders)
    (hopen : ∀ p, (f p).status = "open" → p.status = "open")
    (h : PoolInv s) :
    PoolInv { s with pools := s.pools.map f } := by
  obtain ⟨hnd, hm, hp⟩ := h
  have hids : (s.pools.map f).map (fun p => p.id) = s.pools.map (fun p => p.id) := by
    rw [List.map_map]
    exact List.map_congr_left (fun p _ => hid p)
  refine ⟨?_, ?_, ?_⟩
  · show ((s.pools.map f).map (fun p => p.id)).Nodup
    rw [hids]
    exact hnd
  · intro m hmem
    show m.pool_id ∈ (s.pools.map f).map (fun p => p.id)
    rw [hids]
    exact hm m hmem
  · intro p' hp'
    rcases List.mem_map.mp hp' with ⟨p, hpmem, rfl⟩
    have hcount : member_count { s with pools := s.pools.map f } (f p).id =
        member_count s p.id := by
      rw [hid p]
      rfl
    rw [hcount, hmax p]
    exact ⟨(hp p hpmem).1, fun ho => (hp p hpmem).2 (hopen p ho)⟩

/-- The new pool row and membership row of create_pool. -/
def created_pool (now : Int) (s : DB) : Pool :=
  { id := next_pool_id s, status := "open", max_riders := 4, max_wait_time := 10,
    created_at := now, closed_at := none }

def created_membership (rr : RideRequest) (s : DB) : PoolMembership :=
  { pool_id := next_pool_id s, ride_request := rr, pickup_order := 1, dropoff_order := 1 }

theorem create_pool_pools (now : Int) (rr : RideRequest) (s : DB) :
    (create_pool now rr s).1.pools = s.pools ++ [created_pool now s] := rfl

theorem create_pool_memberships (now : Int) (rr : RideRequest) (s : DB) :
    (create_pool now rr s).1.memberships = s.memberships ++ [created_membership rr s] := rfl

theorem pool_inv_create (now : Int) (rr : RideRequest) (s : DB) (h : PoolInv s) :
    PoolInv (create_pool now rr s).1 := by
  obtain ⟨hnd, hm, hp⟩ := h
  have hfresh := next_pool_id_fresh s
  have hsingle_other : ∀ q : Nat, q ≠ next_pool_id s →
      memberships_of [created_membership rr s] q = [] := by
    intro q hq
    apply List.filter_eq_nil_iff.mpr
    intro m hmem
    rcases List.mem_singleton.mp hmem with rfl
    simp only [beq_iff_eq]
    intro hc
    exact hq (hc.symm)
  have hcount_other : ∀ q : Nat, q ≠ next_pool_id s →
      member_count (create_pool now rr s).1 q = member_count s q := by
    intro q hq
    unfold member_count
    rw [create_pool_memberships, memberships_of_append, hsingle_other q hq,
      List.append_nil]
  have hcount_new : member_count (create_pool now rr s).1 (next_pool_id s) = 1 := by
    unfold member_count
    rw [create_pool_memberships, memberships_of_append]
    have hold : memberships_of s.memberships (next_pool_id s) = [] := by
      apply List.filter_eq_nil_iff.mpr
      intro m hmem
      simp only [beq_iff_eq]
      intro hc
      exact hfresh (hc ▸ hm m hmem)
    rw [hold, List.nil_append]
    simp [memberships_of, created_membership]
  refine ⟨?_, ?_, ?_⟩
  · rw [create_pool_pools, List.map_append, List.nodup_append]
    exact ⟨hnd, List.nodup_singleton _, by
      intro a ha hb
      rcases List.mem_singleton.mp hb with rfl
      exact hfresh ha⟩
  · intro m hmem
    rw [create_pool_pools, List.map_append]
    rw [create_pool_memberships] at hmem
    rcases List.mem_append.mp hmem with h1 | h1
    · exact List.mem_append_left _ (hm m h1)
    · rcases List.mem_singleton.mp h1 with rfl
      exact List.mem_append_right _ (List.mem_singleton.mpr rfl)
  · intro p' hp'
    rw [create_pool_pools] at hp'
    rcases List.mem_append.mp hp' with h1 | h1
    · have hne : p'.id ≠ next_pool_id s := by
        intro hc
        exact hfresh (hc ▸ List.mem_map.mpr ⟨p', h1, rfl⟩)
      rw [hcount_other p'.id hne]
      exact hp p' h1
    · rcases List.mem_singleton.mp h1 with rfl
      constructor
      · show member_count _ (next_pool_id s) ≤ 4
        rw [hcount_new]
        norm_num
      · intro _
        show member_count _ (next_pool_id s) < 4
        rw [hcount_new]
        norm_num

/-- add_to_pool, spelled without its let bindings. -/
theorem add_to_pool_eq (now : Int) (rr : RideRequest) (pid : Nat) (s : DB) :
    add_to_pool now rr pid s =
      (match s.pools.find? (fun p => p.id == pid) with
       | none => update_pool_members_order s pid
           (optimize_route (member_requests s pid ++ [rr])) rr
       | some pool =>
         if pool.max_riders ≤ member_count (update_pool_members_order s pid
             (optimize_route (member_requests s pid ++ [rr])) rr) pid then
           { update_pool_members_order s pid
               (optimize_route (member_requests s pid ++ [rr])) rr with
             pools := s.pools.map (fun p =>
               if p.id == pid then { p with status := "filled", closed_at := some now }
               else p) }
         else update_pool_members_order s pid
           (optimize_route (member_requests s pid ++ [rr])) rr) := rfl

theorem pool_inv_add (now : Int) (rr : RideRequest) (pid : Nat) (s : DB)
    (h : PoolInv s) (p0 : Pool) (hp0 : p0 ∈ s.pools) (hpid : p0.id = pid)
    (hopen : p0.status = "open") :
    PoolInv (add_to_pool now rr pid s) := by
  obtain ⟨hnd, hm, hp⟩ := h
  have hlt : member_count s pid < p0.max_riders := hpid ▸ (hp p0 hp0).2 hopen
  set route := optimize_route (member_requests s pid ++ [rr]) with hroute
  set s1 := update_pool_members_order s pid route rr with hs1
  have hs1pools : s1.pools = s.pools := rfl
  have hs1le : member_count s1 pid ≤ member_count s pid + 1 :=
    member_count_add_self_le s pid rr
  have hs1other : ∀ q, q ≠ pid → member_count s1 q = member_count s q :=
    fun q hq => member_count_update_other s pid q route rr hq
  have hs1mem : ∀ m ∈ s1.memberships, m.pool_id ∈ s.pools.map (fun p => p.id) := by
    intro m hmem
    rcases mem_update_memberships s pid route rr m hmem with h1 | h1
    · exact hm m h1
    · exact h1 ▸ hpid ▸ List.mem_map.mpr ⟨p0, hp0, rfl⟩
  have hids_fill : (s.pools.map (fun p : Pool =>
      if p.id == pid then { p with status := "filled", closed_at := some now }
      else p)).map (fun p => p.id) = s.pools.map (fun p => p.id) := by
    rw [List.map_map]
    refine List.map_congr_left (fun p _ => ?_)
    show (if p.id == pid then
        ({ p with status := "filled", closed_at := some now } : Pool) else p).id = p.id
    by_cases hb : (p.id == pid) = true
    · rw [if_pos hb]
    · rw [if_neg hb]
  rw [add_to_pool_eq]
  rcases hf : s.pools.find? (fun p => p.id == pid) with _ | pool
  · exact absurd (beq_iff_eq.mpr hpid) (List.find?_eq_none.mp hf p0 hp0)
  · have hpool_beq0 := List.find?_some hf
    have hpool_beq : (pool.id == pid) = true := hpool_beq0
    have hpool_eq : pool = p0 :=
      pool_eq_of_id_eq hnd (List.mem_of_find?_eq_some hf) hp0
        ((beq_iff_eq.mp hpool_beq).trans hpid.symm)
    rw [hf]
    change PoolInv (if pool.max_riders ≤ member_count s1 pid then _ else _)
    by_cases hfill : pool.max_riders ≤ member_count s1 pid
    · rw [if_pos hfill]
      refine ⟨?_, ?_, ?_⟩
      · show ((s.pools.map (fun p : Pool =>
            if p.id == pid then { p with status := "filled", closed_at := some now }
            else p)).map (fun p => p.id)).Nodup
        rw [hids_fill]
        exact hnd
      · intro m hmem
        show m.pool_id ∈ (s.pools.map (fun p : Pool =>
            if p.id == pid then { p with status := "filled", closed_at := some now }
            else p)).map (fun p => p.id)
        rw [hids_fill]
        exact hs1mem m hmem
      · intro p' hp'
        rcases List.mem_map.mp hp' with ⟨q, hq, rfl⟩
        by_cases hb : (q.id == pid) = true
        · rw [if_pos hb]
          have hq_eq : q = p0 :=
            pool_eq_of_id_eq hnd hq hp0 ((beq_iff_eq.mp hb).trans hpid.symm)
          constructor
          · show member_count _ q.id ≤ q.max_riders
            have hcc : member_count s1 q.id ≤ q.max_riders := by
              rw [beq_iff_eq.mp hb]
              calc member_count s1 pid ≤ member_count s pid + 1 := hs1le
                _ ≤ q.max_riders := by
                  rw [hq_eq]
                  omega
            exact hcc
          · intro hc
            exact absurd hc (by decide : ¬ ("filled" = "open"))
        · rw [if_neg hb]
          have hqne : q.id ≠ pid := fun hc => hb (beq_iff_eq.mpr hc)
          have hcc : member_count s1 q.id = member_count s q.id := hs1other q.id hqne
          show member_count _ q.id ≤ q.max_riders ∧ _
          refine ⟨?_, ?_⟩
          · show member_count s1 q.id ≤ q.max_riders
            rw [hcc]
            exact (hp q hq).1
          · intro ho
            show member_count s1 q.id < q.max_riders
            rw [hcc]
            exact (hp q hq).2 ho
    · rw [if_neg hfill]
      refine ⟨hnd, hs1mem, ?_⟩
      intro p' hp'
      by_cases hb : p'.id = pid
      · have hp'_eq : p' = p0 := pool_eq_of_id_eq hnd hp' hp0 (hb.trans hpid.symm)
        have hcount : member_count s1 p'.id < p'.max_riders := by
          rw [hb, hp'_eq, ← hpool_eq]
          omega
        exact ⟨le_of_lt hcount, fun _ => hcount⟩
      · have hcc : member_count s1 p'.id = member_count s p'.id := hs1other p'.id hb
        refine ⟨?_, ?_⟩
        · show member_count s1 p'.id ≤ p'.max_riders
          rw [hcc]
          exact (hp p' hp').1
        · intro ho
          show member_count s1 p'.id < p'.max_riders
          rw [hcc]
          exact (hp p' hp').2 ho

/-- Helper: every pool returned by the candidate query is a stored pool
with status open. -/
theorem find_matching_pools_open (now : Int) (rr : RideRequest) (s : DB) (p : Pool)
    (hp : p ∈ find_matching_pools now rr s) :
    p ∈ s.pools ∧ p.status = "open" := by
  unfold find_matching_pools at hp
  rcases List.mem_filter.mp hp with ⟨hp1, -⟩
  rcases List.mem_filter.mp hp1 with ⟨hmem, hcond⟩
  rw [Bool.and_eq_true] at hcond
  exact ⟨hmem, beq_iff_eq.mp hcond.1⟩

/-- request_ride, spelled without its let binding. -/
theorem request_ride_eq (now : Int) (rr : RideRequest) (s : DB) :
    request_ride now rr s =
      (match find_matching_pools now rr { s with requests := s.requests ++ [rr] } with
       | [] => create_pool now rr { s with requests := s.requests ++ [rr] }
       | pool :: _ =>
         (add_to_pool now rr pool.id { s with requests := s.requests ++ [rr] },
          pool.id)) := rfl

theorem pool_inv_request (now : Int) (rr : RideRequest) (s : DB) (h : PoolInv s) :
    PoolInv (request_ride now rr s).1 := by
  have h0 : PoolInv { s with requests := s.requests ++ [rr] } := h
  rcases hm : find_matching_pools now rr { s with requests := s.requests ++ [rr] }
    with _ | ⟨p0, rest⟩
  · have he : (request_ride now rr s).1 =
        (create_pool now rr { s with requests := s.requests ++ [rr] }).1 := by
      rw [request_ride_eq, hm]
    rw [he]
    exact pool_inv_create now rr _ h0
  · have he : (request_ride now rr s).1 =
        add_to_pool now rr p0.id { s with requests := s.requests ++ [rr] } := by
      rw [request_ride_eq, hm]
    rw [he]
    have hp0 := find_matching_pools_open now rr _ p0 (hm ▸ List.mem_cons_self p0 rest)
    exact pool_inv_add now rr p0.id _ h0 p0 hp0.1 rfl hp0.2

theorem pool_inv_cancel (rid : Nat) (s : DB) (h : PoolInv s) :
    PoolInv (cancel_ride rid s).1 := by
  unfold cancel_ride
  rcases hf : s.requests.find? (fun r => r.id == rid) with _ | rr
  · rw [hf]
    exact h
  · rw [hf]
    by_cases hst : (rr.status = "completed" ∨ rr.status = "cancelled")
    · change PoolInv ((if rr.status = "completed" ∨ rr.status = "cancelled"
        then (s, CancelResult.rejected) else _).1)
      rw [if_pos hst]
      exact h
    · change PoolInv ((if rr.status = "completed" ∨ rr.status = "cancelled"
        then (s, CancelResult.rejected) else _).1)
      rw [if_neg hst]
      exact h

theorem pool_inv_accept (did pid : Nat) (s : DB) (h : PoolInv s) :
    PoolInv (driver_accept_pool did pid s).1 := by
  unfold driver_accept_pool
  rcases hd : s.drivers.find? (fun d => d.id == did) with _ | d <;>
    rcases hp2 : s.pools.find? (fun p => p.id == pid && p.status == "filled") with _ | p <;>
    rw [hd, hp2]
  · exact h
  · exact h
  · exact h
  · show PoolInv { s with
      trips := _, pools := s.pools.map (fun p =>
        if p.id == pid then { p with status := "driver_assigned" } else p),
      drivers := _ }
    exact pool_inv_map_status _ _
      (fun p => by by_cases hb : (p.id == pid) = true <;> simp [hb])
      (fun p => by by_cases hb : (p.id == pid) = true <;> simp [hb])
      (fun p hc => by
        by_cases hb : (p.id == pid) = true
        · rw [if_pos hb] at hc
          exact absurd hc (by decide : ¬ ("driver_assigned" = "open"))
        · rwa [if_neg hb] at hc)
      h

theorem pool_inv_sweep (now : Int) (s : DB) (h : PoolInv s) :
    PoolInv (close_expired_pools now s) := by
  show PoolInv { s with pools := s.pools.map _ }
  exact pool_inv_map_status _ _
    (fun p => by
      by_cases hb : (p.status == "open" && decide (p.created_at ≤ now - 10)) = true <;>
        simp [hb])
    (fun p => by
      by_cases hb : (p.status == "open" && decide (p.created_at ≤ now - 10)) = true <;>
        simp [hb])
    (fun p hc => by
      by_cases hb : (p.status == "open" && decide (p.created_at ≤ now - 10)) = true
      · rw [if_pos hb] at hc
        exact absurd hc (by decide : ¬ ("expired" = "open"))
      · rwa [if_neg hb] at hc)
    h

theorem step_preserves_pool_inv {s s' : DB} (hstep : Step s s') (h : PoolInv s) :
    PoolInv s' := by
  cases hstep with
  | request now rr s => exact pool_inv_request now rr s h
  | cancel rid s => exact pool_inv_cancel rid s h
  | accept did pid s => exact pool_inv_accept did pid s h
  | sweep now s => exact pool_inv_sweep now s h
  | register_driver d s => exact h

theorem reachable_pool_inv (s : DB) (h : Reachable s) : PoolInv s := by
  induction h with
  | init =>
    refine ⟨List.nodup_nil, ?_, ?_⟩
    · intro m hm
      exact absurd hm (List.not_mem_nil m)
    · intro p hp
      exact absurd hp (List.not_mem_nil p)
  | step hr hstep ih => exact step_preserves_pool_inv hstep ih

/-- Claim C1: in every reachable state each pool's membership count is at
most its max_riders; all engine operations (pool creation, joins via
request_ride, cancellation, driver acceptance, the expiry sweep) preserve
the bound, and in particular a join against an open pool with one seat left
ends at most at capacity (an open pool always has a free seat, and the join
fills the pool the moment it reaches max_riders). -/
theorem pool_count_within_capacity (s : DB) (h : Reachable s) :
    ∀ p ∈ s.pools, member_count s p.id ≤ p.max_riders :=
  fun p hp => ((reachable_pool_inv s h).2.2 p hp).1

/-- Witness for pool_count_within_capacity: the state after one concrete
request_ride step is reachable and its pool holds the bound. -/
theorem pool_count_within_capacity_witness :
    member_count (request_ride 0 c4_rr init_db).1 1 ≤ 4 := by
  have hr : Reachable (request_ride 0 c4_rr init_db).1 :=
    Reachable.step Reachable.init (Step.request 0 c4_rr init_db)
  have hpools : (request_ride 0 c4_rr init_db).1.pools =
      [{ id := 1, status := "open", max_riders := 4, max_wait_time := 10,
         created_at := 0, closed_at := none }] := rfl
  exact pool_count_within_capacity _ hr
    { id := 1, status := "open", max_riders := 4, max_wait_time := 10,
      created_at := 0, closed_at := none }
    (by rw [hpools]; exact List.mem_singleton.mpr rfl)

/-- Both branches of optimize_route compute the pickup-order and
dropoff-order dicts by the same counter fold, so they are equal. -/
theorem optimize_route_orders_equal (rs : List RideRequest) :
    (optimize_route rs).pickup_orders = (optimize_route rs).dropoff_orders := by
  unfold optimize_route
  by_cases h : rs.length = 1
  · rw [dif_pos h]
    rfl
  · rw [dif_neg h]
    rfl

/-- The invariant behind claim C10: every stored membership has equal pickup
and dropoff orders. -/
def OrdInv (s : DB) : Prop :=
  ∀ m ∈ s.memberships, m.pickup_order = m.dropoff_order

theorem ord_inv_update (s : DB) (pid : Nat) (rs : List RideRequest)
    (new_rr : RideRequest) (h : OrdInv s) :
    OrdInv (update_pool_members_order s pid (optimize_route rs) new_rr) := by
  intro m hm
  rcases List.mem_append.mp hm with h1 | h1
  · exact h m (List.mem_of_mem_filter h1)
  · rcases List.mem_map.mp h1 with ⟨r, _, rfl⟩
    show dict_get (optimize_route rs).pickup_orders r.id 1 =
      dict_get (optimize_route rs).dropoff_orders r.id 1
    rw [optimize_route_orders_equal]

theorem ord_inv_create (now : Int) (rr : RideRequest) (s : DB) (h : OrdInv s) :
    OrdInv (create_pool now rr s).1 := by
  intro m hm
  rw [create_pool_memberships] at hm
  rcases List.mem_append.mp hm with h1 | h1
  · exact h m h1
  · rcases List.mem_singleton.mp h1 with rfl
    rfl

theorem ord_inv_add (now : Int) (rr : RideRequest) (pid : Nat) (s : DB)
    (h : OrdInv s) : OrdInv (add_to_pool now rr pid s) := by
  rw [add_to_pool_eq]
  have h1 := ord_inv_update s pid (member_requests s pid ++ [rr]) rr h
  rcases hf : s.pools.find? (fun p => p.id == pid) with _ | pool
  · rw [hf]
    exact h1
  · rw [hf]
    change OrdInv (if pool.max_riders ≤ _ then _ else _)
    by_cases hfill : pool.max_riders ≤ member_count (update_pool_members_order s pid
        (optimize_route (member_requests s pid ++ [rr])) rr) pid
    · rw [if_pos hfill]
      exact h1
    · rw [if_neg hfill]
      exact h1

theorem ord_inv_request (now : Int) (rr : RideRequest) (s : DB) (h : OrdInv s) :
    OrdInv (request_ride now rr s).1 := by
  have h0 : OrdInv { s with requests := s.requests ++ [rr] } := h
  rcases hm : find_matching_pools now rr { s with requests := s.requests ++ [rr] }
    with _ | ⟨p0, rest⟩
  · have he : (request_ride now rr s).1 =
        (create_pool now rr { s with requests := s.requests ++ [rr] }).1 := by
      rw [request_ride_eq, hm]
    rw [he]
    exact ord_inv_create now rr _ h0
  · have he : (request_ride now rr s).1 =
        add_to_pool now rr p0.id { s with requests := s.requests ++ [rr] } := by
      rw [request_ride_eq, hm]
    rw [he]
    exact ord_inv_add now rr p0.id _ h0

theorem ord_inv_cancel (rid : Nat) (s : DB) (h : OrdInv s) :
    OrdInv (cancel_ride rid s).1 := by
  unfold cancel_ride
  rcases hf : s.requests.find? (fun r => r.id == rid) with _ | rr
  · rw [hf]
    exact h
  · rw [hf]
    by_cases hst : (rr.status = "completed" ∨ rr.status = "cancelled")
    · change OrdInv ((if rr.status = "completed" ∨ rr.status = "cancelled"
        then (s, CancelResult.rejected) else _).1)
      rw [if_pos hst]
      exact h
    · change OrdInv ((if rr.status = "completed" ∨ rr.status = "cancelled"
        then (s, CancelResult.rejected) else _).1)
      rw [if_neg hst]
      exact h

theorem ord_inv_accept (did pid : Nat) (s : DB) (h : OrdInv s) :
    OrdInv (driver_accept_pool did pid s).1 := by
  unfold driver_accept_pool
  rcases hd : s.drivers.find? (fun d => d.id == did) with _ | d <;>
    rcases hp2 : s.pools.find? (fun p => p.id == pid && p.status == "filled") with _ | p <;>
    rw [hd, hp2] <;>
    exact h

theorem step_preserves_ord_inv {s s' : DB} (hstep : Step s s') (h : OrdInv s) :
    OrdInv s' := by
  cases hstep with
  | request now rr s => exact ord_inv_request now rr s h
  | cancel rid s => exact ord_inv_cancel rid s h
  | accept did pid s => exact ord_inv_accept did pid s h
  | sweep now s => exact h
  | register_driver d s => exact h

theorem reachable_ord_inv (s : DB) (h : Reachable s) : OrdInv s := by
  induction h with
  | init => exact fun m hm => absurd hm (List.not_mem_nil m)
  | step hr hstep ih => exact step_preserves_ord_inv hstep ih

/-- Claim C10 (implicit): route optimization always produces equal
pickup-order and dropoff-order maps, and consequently every stored
membership in every reachable state has pickup_order = dropoff_order —
riders are dropped off in exactly the order they are picked up, and every
operation preserves this. -/
theorem pickup_order_eq_dropoff_order :
    (∀ rs : List RideRequest,
      (optimize_route rs).pickup_orders = (optimize_route rs).dropoff_orders) ∧
    ∀ s : DB, Reachable s → ∀ m ∈ s.memberships, m.pickup_order = m.dropoff_order :=
  ⟨optimize_route_orders_equal, fun s h => reachable_ord_inv s h⟩

/-- Witness for pickup_order_eq_dropoff_order at the state reached by one
concrete request_ride step. -/
theorem pickup_order_eq_dropoff_order_witness :
    ({ pool_id := 1, ride_request := c4_rr, pickup_order := 1, dropoff_order := 1 }
        : PoolMembership).pickup_order =
      ({ pool_id := 1, ride_request := c4_rr, pickup_order := 1, dropoff_order := 1 }
        : PoolMembership).dropoff_order := by
  have hr : Reachable (request_ride 0 c4_rr init_db).1 :=
    Reachable.step Reachable.init (Step.request 0 c4_rr init_db)
  have hms : (request_ride 0 c4_rr init_db).1.memberships =
      [{ pool_id := 1, ride_request := c4_rr, pickup_order := 1, dropoff_order := 1 }] :=
    rfl
  exact pickup_order_eq_dropoff_order.2 _ hr _ (by rw [hms]; exact List.mem_singleton.mpr rfl)

end Carpool
